import Mathlib

/-!
Verification of the kaijs ingestion pipeline (fedora-ci/kaijs).

This file shallowly embeds the parts of the code base that the checked
properties talk about:

* `src/paths.js` — path enumeration (`paths_mongodb_pack_array`,
  `drop_empty_paths`) over JSON documents;
* `src/db.ts` — `Artifacts.mk_update_set`, the optimistic-concurrency
  retry loop of `Artifacts.add`, and the `_version` protocol of
  `Artifacts.findOrCreate` / `findOneAndUpdate`;
* `src/msg_handlers.ts` (doc-DB side) and `src/opensearch/msg_handlers.ts`
  (search-index side) — `mkThreadId`, `makeTestCaseName`, `customMerge`;
* `src/msg_handlers_rpm_build.ts` — the state-append step of
  `handlerCommon`;
* the OpenSearch loader loop (bulk flush scheduling);
* the AMQP-1.0 listener `process_msg` (spool push / broker ack ordering).

JSON values are modelled by the mutually inductive `JsonVal` / `JsonArr` /
`JsonObj`; JavaScript objects are association lists in document order
(JavaScript objects cannot contain a key twice, which `wfJson` expresses).
Lodash helpers used by the code (`_.get`, `_.isEqual`, `_.isEmpty`,
`_.split`, `_.nth`, ...) are embedded next to the functions that use them.
-/

namespace Kaijs

/-- Decimal rendering of a natural number; fuel-based so that it reduces
in the kernel (used for array indices and number-to-string coercions). -/
def natToStrGo : Nat → Nat → List Char → List Char
  | 0, _, acc => acc
  | fuel + 1, n, acc =>
      if n = 0 then acc
      else natToStrGo fuel (n / 10) (Char.ofNat (48 + n % 10) :: acc)

/-- Decimal rendering of a natural number. -/
def natToStr (n : Nat) : String :=
  if n = 0 then "0" else ⟨natToStrGo (n + 1) n []⟩

/-- Decimal rendering of an integer (JavaScript `String(n)`). -/
def intToStr : Int → String
  | .ofNat n => natToStr n
  | .negSucc n => "-" ++ natToStr (n + 1)

/-- Splitting a string on the dot character, JavaScript
`String.prototype.split('.')` semantics: the empty string yields one empty
segment, and separators at the ends yield empty segments. -/
def splitOnDot (s : String) : List String :=
  let r := s.data.foldl
    (fun (acc : List String × String) (c : Char) =>
      if c = '.' then (acc.1 ++ [acc.2], "") else (acc.1, acc.2.push c))
    ([], "")
  r.1 ++ [r.2]

/-- JavaScript `String.prototype.startsWith` (kernel-reducible form). -/
def startsWithStr (pre s : String) : Bool :=
  pre.data.isPrefixOf s.data

/-- Lodash `_.nth(list, -2)`: the second element from the end, `undefined`
when the list is shorter than two elements. -/
def nthFromEnd2 (l : List String) : Option String :=
  if l.length < 2 then none else (l.drop (l.length - 2)).head?

/-- Lodash `_.last(list)`. -/
def lastElem (l : List String) : Option String :=
  l.getLast?

mutual
/-- A JSON-like JavaScript value.  `undefined` is JavaScript `undefined`
(what `_.get` yields for a missing path, and a possible property value
produced by the payload extractors). -/
inductive JsonVal where
  | null
  | undefined
  | bool (b : Bool)
  | num (n : Int)
  | str (s : String)
  | arr (xs : JsonArr)
  | obj (kvs : JsonObj)

/-- A JSON array (spine made explicit so that every function on values is
structurally recursive, hence kernel-reducible). -/
inductive JsonArr where
  | nil
  | cons (hd : JsonVal) (tl : JsonArr)

/-- A JSON object: association list of key/value bindings in document
order.  A well-formed JavaScript object binds every key at most once. -/
inductive JsonObj where
  | nil
  | cons (k : String) (v : JsonVal) (tl : JsonObj)
end

/-- Converts a Lean list of values into a `JsonArr` (literal helper). -/
def JsonArr.ofList : List JsonVal → JsonArr
  | [] => .nil
  | x :: xs => .cons x (JsonArr.ofList xs)

/-- Converts a Lean association list into a `JsonObj` (literal helper). -/
def JsonObj.ofList : List (String × JsonVal) → JsonObj
  | [] => .nil
  | (k, v) :: kvs => .cons k v (JsonObj.ofList kvs)

/-- Number of bindings of an object. -/
def JsonObj.len : JsonObj → Nat
  | .nil => 0
  | .cons _ _ tl => tl.len + 1

/-- Number of elements of an array. -/
def JsonArr.len : JsonArr → Nat
  | .nil => 0
  | .cons _ tl => tl.len + 1

/-- JavaScript property read `o[k]`: the value of the first binding of
key `k`, if any. -/
def lookupJ (k : String) : JsonObj → Option JsonVal
  | .nil => none
  | .cons k' v tl => if k = k' then some v else lookupJ k tl

/-- Whether an object has a binding for key `k`. -/
def hasKey (k : String) : JsonObj → Bool
  | .nil => false
  | .cons k' _ tl => k = k' || hasKey k tl

/-- JavaScript property write `o[k] = v`: overwrites the binding in place
when the key exists, otherwise appends a new binding. -/
def setKey : JsonObj → String → JsonVal → JsonObj
  | .nil, k, v => .cons k v .nil
  | .cons k' v' tl, k, v =>
      if k = k' then .cons k' v tl else .cons k' v' (setKey tl k v)

/-- Element of an array at a natural index (JavaScript `a[i]`), `undefined`
past the end. -/
def JsonArr.get? : JsonArr → Nat → Option JsonVal
  | .nil, _ => none
  | .cons x _, 0 => some x
  | .cons _ tl, n + 1 => tl.get? n

/-- Lodash `_.isString`. -/
def isStringJS : JsonVal → Bool
  | .str _ => true
  | _ => false

/-- Lodash `_.isArray`. -/
def isArrayJS : JsonVal → Bool
  | .arr _ => true
  | _ => false

/-- Lodash `_.isPlainObject` (on JSON values: exactly the objects). -/
def isPlainObjectJS : JsonVal → Bool
  | .obj _ => true
  | _ => false

/-- Lodash `_.isEmpty`: `true` for `null`, `undefined`, numbers and
booleans; emptiness of the collection for strings, arrays and objects. -/
def isEmptyJS : JsonVal → Bool
  | .null => true
  | .undefined => true
  | .bool _ => true
  | .num _ => true
  | .str s => s = ""
  | .arr .nil => true
  | .arr (.cons _ _) => false
  | .obj .nil => true
  | .obj (.cons _ _ _) => false

/-- Lodash `_.size`: length for strings, arrays and objects, `0` for
everything else (including `undefined`). -/
def sizeJS : JsonVal → Nat
  | .str s => s.length
  | .arr xs => xs.len
  | .obj kvs => kvs.len
  | _ => 0

mutual
/-- Lodash `_.isEqual` on JSON values: deep structural equality, with
objects compared as key/value maps (insertion order is irrelevant; on
well-formed objects the key sets must coincide because the lengths are
compared and lookups must succeed). -/
def isEq : JsonVal → JsonVal → Bool
  | .null, .null => true
  | .undefined, .undefined => true
  | .bool a, .bool b => a == b
  | .num a, .num b => a == b
  | .str a, .str b => a == b
  | .arr xs, .arr ys => isEqArr xs ys
  | .obj k1, .obj k2 => k1.len == k2.len && isEqObj k1 k2
  | _, _ => false

/-- Element-wise equality of arrays (same length, `isEq` pointwise). -/
def isEqArr : JsonArr → JsonArr → Bool
  | .nil, .nil => true
  | .cons x xs, .cons y ys => isEq x y && isEqArr xs ys
  | .nil, .cons _ _ => false
  | .cons _ _, .nil => false

/-- Every binding of the first object is matched by an `isEq`-equal
binding of the second. -/
def isEqObj : JsonObj → JsonObj → Bool
  | .nil, _ => true
  | .cons k v tl, other =>
      (match lookupJ k other with
       | some w => isEq v w
       | none => false) && isEqObj tl other
end

mutual
/-- Well-formedness of a JSON value as a JavaScript value: every object
(at any depth) binds each key at most once. -/
def wfJson : JsonVal → Bool
  | .arr xs => wfArr xs
  | .obj kvs => wfObj kvs
  | _ => true

/-- Well-formedness of every element of an array. -/
def wfArr : JsonArr → Bool
  | .nil => true
  | .cons x tl => wfJson x && wfArr tl

/-- Keys are pairwise distinct and all values are well-formed. -/
def wfObj : JsonObj → Bool
  | .nil => true
  | .cons k v tl => !hasKey k tl && wfJson v && wfObj tl
end

/-- Structural membership of a binding in an object. -/
def pairMem (k : String) (v : JsonVal) : JsonObj → Prop
  | .nil => False
  | .cons k' v' tl => (k = k' ∧ v = v') ∨ pairMem k v tl

theorem hasKey_of_pairMem {k : String} {v : JsonVal} :
    (kvs : JsonObj) → pairMem k v kvs → hasKey k kvs = true
  | .cons k' v' tl, hm => by
      rcases hm with ⟨h1, _⟩ | hm
      · simp [hasKey, h1]
      · simp [hasKey, hasKey_of_pairMem tl hm]

theorem lookupJ_of_pairMem_of_nodup {k : String} {v : JsonVal} :
    (kvs : JsonObj) → wfObj kvs = true → pairMem k v kvs →
    lookupJ k kvs = some v
  | .cons k' v' tl, hwf, hmem => by
      simp only [wfObj, Bool.and_eq_true, Bool.not_eq_true'] at hwf
      rcases hmem with ⟨hk, hv⟩ | hmem
      · subst hk; subst hv; simp [lookupJ]
      · have hk : k ≠ k' := by
          intro h; subst h
          have hhk : hasKey k tl = true := hasKey_of_pairMem tl hmem
          rw [hwf.1.1] at hhk; exact Bool.noConfusion hhk
        simp only [lookupJ, if_neg hk]
        exact lookupJ_of_pairMem_of_nodup tl hwf.2 hmem

mutual
theorem isEq_refl : (v : JsonVal) → wfJson v = true → isEq v v = true
  | .null, _ => rfl
  | .undefined, _ => rfl
  | .bool b, _ => by simp [isEq]
  | .num n, _ => by simp [isEq]
  | .str s, _ => by simp [isEq]
  | .arr xs, h => by
      simpa [isEq] using isEqArr_refl xs (by simpa [wfJson] using h)
  | .obj kvs, h => by
      have hwf : wfObj kvs = true := by simpa [wfJson] using h
      simp [isEq, isEqObj_refl_general kvs kvs hwf
        (fun k v hm => lookupJ_of_pairMem_of_nodup kvs hwf hm)]

theorem isEqArr_refl : (xs : JsonArr) → wfArr xs = true → isEqArr xs xs = true
  | .nil, _ => rfl
  | .cons x xs, h => by
      simp only [wfArr, Bool.and_eq_true] at h
      simp [isEqArr, isEq_refl x h.1, isEqArr_refl xs h.2]

theorem isEqObj_refl_general :
    (kvs other : JsonObj) → wfObj kvs = true →
    (∀ k v, pairMem k v kvs → lookupJ k other = some v) →
    isEqObj kvs other = true
  | .nil, _, _, _ => rfl
  | .cons k v tl, other, hwf, hlk => by
      simp only [wfObj, Bool.and_eq_true] at hwf
      have h1 : lookupJ k other = some v := hlk k v (Or.inl ⟨rfl, rfl⟩)
      simp [isEqObj, h1, isEq_refl v hwf.1.2,
        isEqObj_refl_general tl other hwf.2
          (fun k' v' hm => hlk k' v' (Or.inr hm))]
end

/-- Parse of a decimal array index (used by `_.get` when a path segment
addresses an array element). -/
def toNatDigits? (s : String) : Option Nat :=
  if s = "" then none
  else s.data.foldl
    (fun acc c =>
      match acc with
      | none => none
      | some n =>
          if 48 ≤ c.toNat && c.toNat ≤ 57 then some (n * 10 + (c.toNat - 48))
          else none)
    (some 0)

/-- One step of lodash `_.get`: resolve a single path segment against a
value (property of an object, index of an array or string, otherwise
`undefined`). -/
def jgetSeg (v : JsonVal) (seg : String) : JsonVal :=
  match v with
  | .obj kvs => (lookupJ seg kvs).getD .undefined
  | .arr xs =>
      match toNatDigits? seg with
      | some i => (xs.get? i).getD .undefined
      | none => .undefined
  | .str s =>
      match toNatDigits? seg with
      | some i =>
          match s.data.get? i with
          | some c => .str ⟨[c]⟩
          | none => .undefined
      | none => .undefined
  | _ => .undefined

/-- Lodash `_.get(value, path)` for a dotted path.  The code converts
MongoDB dotted paths to the bracketed lodash form with
`path_mongodb_to_lodash` before calling `_.get`; both notations resolve
the same sequence of segments, which is what this function walks. -/
def jget (v : JsonVal) (path : String) : JsonVal :=
  (splitOnDot path).foldl jgetSeg v

mutual
/-- Dotted paths of an object for `paths_mongodb_pack_array`
(src/paths.js): a binding contributes its key alone unless its value is a
non-empty plain object, in which case the key prefixes the recursive
paths.  Arrays and empty objects are therefore opaque leaves. -/
def pathsPackObj : JsonObj → List String
  | .nil => []
  | .cons k v tl =>
      (match v with
       | .obj (.cons k' v' tl') =>
           (pathsPackObj (.cons k' v' tl')).map (fun p => k ++ "." ++ p)
       | _ => [k]) ++ pathsPackObj tl

/-- The array counterpart (only reachable when the function is applied to
an array, which the writer never does): `_.toPairs` enumerates indices. -/
def pathsPackArr : JsonArr → Nat → List String
  | .nil, _ => []
  | .cons v tl, i =>
      (match v with
       | .obj (.cons k' v' tl') =>
           (pathsPackObj (.cons k' v' tl')).map (fun p => natToStr i ++ "." ++ p)
       | _ => [natToStr i]) ++ pathsPackArr tl (i + 1)
end

/-- src/paths.js `paths_mongodb_pack_array`: enumerate dotted paths,
stopping the descent at arrays, empty objects and scalars.  On a
non-object argument `_.toPairs` enumerates indices (the source notes this
function must be called with an object). -/
def paths_mongodb_pack_array : JsonVal → List String
  | .obj kvs => pathsPackObj kvs
  | .arr xs => pathsPackArr xs 0
  | .str s => (List.range s.length).map natToStr
  | _ => []

/-- src/paths.js `isEmpty(obj, path)`: the value the path resolves to is
`null` or `undefined`. -/
def isEmptyAtPath (v : JsonVal) (p : String) : Bool :=
  match jget v p with
  | .null => true
  | .undefined => true
  | _ => false

/-- src/paths.js `drop_empty_paths(paths, obj)`: `_.remove` deletes the
paths resolving to `null`/`undefined`, keeping the rest in order. -/
def drop_empty_paths (paths : List String) (v : JsonVal) : List String :=
  paths.filter (fun p => !isEmptyAtPath v p)

/-- Lodash `_.fromPairs`: build a JavaScript object by assigning the pairs
left to right (a later binding of the same key overwrites in place). -/
def fromPairs (l : List (String × JsonVal)) : JsonObj :=
  l.foldl (fun o kv => setKey o kv.1 kv.2) .nil

/-- The `differenceWith` comparator of `Artifacts.mk_update_set`
(src/db.ts): a new path is dropped exactly when it coincides with an old
path and the values the two documents hold there are `_.isEqual`. -/
def updateSetComparator (newdata present : JsonVal)
    (new_path old_path : String) : Bool :=
  if new_path = old_path then isEq (jget newdata new_path) (jget present old_path)
  else false

/-- `Artifacts.mk_update_set(present, newdata)` (src/db.ts): enumerate the
packed paths of both documents, drop those resolving to `null`/`undefined`,
keep the new paths that no old path makes the comparator drop, and build
the update object from the surviving new paths and their values in
`newdata`. -/
def mk_update_set (present newdata : JsonVal) : JsonObj :=
  let paths_new := drop_empty_paths (paths_mongodb_pack_array newdata) newdata
  let paths_present := drop_empty_paths (paths_mongodb_pack_array present) present
  let paths_update := paths_new.filter
    (fun np => !(paths_present.any (fun op => updateSetComparator newdata present np op)))
  fromPairs (paths_update.map (fun p => (p, jget newdata p)))

theorem lookupJ_setKey_self (k : String) (v : JsonVal) :
    (o : JsonObj) → lookupJ k (setKey o k v) = some v
  | .nil => by simp [setKey, lookupJ]
  | .cons k' v' tl => by
      by_cases h : k = k'
      · simp [setKey, h, lookupJ]
      · simp [setKey, h, lookupJ, lookupJ_setKey_self k v tl]

theorem lookupJ_setKey_ne (k k' : String) (v : JsonVal) (hne : k ≠ k') :
    (o : JsonObj) → lookupJ k (setKey o k' v) = lookupJ k o
  | .nil => by simp [setKey, lookupJ, hne]
  | .cons k'' v'' tl => by
      by_cases h : k' = k''
      · subst h; simp [setKey, lookupJ, hne]
      · by_cases h2 : k = k''
        · simp [setKey, h, lookupJ, h2]
        · simp [setKey, h, lookupJ, h2, lookupJ_setKey_ne k k' v hne tl]

theorem lookupJ_foldl_setKey_skip (k : String) :
    (l : List (String × JsonVal)) → (acc : JsonObj) →
    (∀ kv ∈ l, kv.1 ≠ k) →
    lookupJ k (l.foldl (fun o kv => setKey o kv.1 kv.2) acc) = lookupJ k acc
  | [], acc, _ => rfl
  | kv :: l', acc, h => by
      have hne : k ≠ kv.1 := fun he => (h kv (by simp)) he.symm
      rw [List.foldl_cons,
        lookupJ_foldl_setKey_skip k l' _ (fun x hx => h x (by simp [hx])),
        lookupJ_setKey_ne k kv.1 kv.2 hne]

theorem lookupJ_foldl_setKey_const (k : String) (v : JsonVal) :
    (l : List (String × JsonVal)) → (acc : JsonObj) →
    (∀ kv ∈ l, kv.1 = k → kv.2 = v) →
    (k ∈ l.map Prod.fst ∨ lookupJ k acc = some v) →
    lookupJ k (l.foldl (fun o kv => setKey o kv.1 kv.2) acc) = some v
  | [], acc, _, hm => by
      rcases hm with hm | hm
      · simp at hm
      · simpa using hm
  | kv :: l', acc, hconst, hm => by
      rw [List.foldl_cons]
      by_cases h : kv.1 = k
      · have hv : kv.2 = v := hconst kv (by simp) h
        refine lookupJ_foldl_setKey_const k v l' _
          (fun x hx hxk => hconst x (by simp [hx]) hxk) (Or.inr ?_)
        rw [h, hv, lookupJ_setKey_self]
      · refine lookupJ_foldl_setKey_const k v l' _
          (fun x hx hxk => hconst x (by simp [hx]) hxk) ?_
        rcases hm with hm | hm
        · rcases List.mem_map.mp hm with ⟨x, hx, hxk⟩
          rcases List.mem_cons.mp hx with hx | hx
          · exact absurd (hx ▸ hxk) h
          · exact Or.inl (List.mem_map.mpr ⟨x, hx, hxk⟩)
        · refine Or.inr ?_
          rw [lookupJ_setKey_ne k kv.1 kv.2 (fun he => h he.symm), hm]

theorem wfJson_of_lookupJ {k : String} {v : JsonVal} :
    (kvs : JsonObj) → wfObj kvs = true → lookupJ k kvs = some v →
    wfJson v = true
  | .cons k' v' tl, hwf, hlk => by
      simp only [wfObj, Bool.and_eq_true] at hwf
      by_cases h : k = k'
      · rw [lookupJ, if_pos h] at hlk
        exact (Option.some.inj hlk) ▸ hwf.1.2
      · rw [lookupJ, if_neg h] at hlk
        exact wfJson_of_lookupJ tl hwf.2 hlk

theorem wfJson_of_arrGet {v : JsonVal} :
    (xs : JsonArr) → (i : Nat) → wfArr xs = true →
    JsonArr.get? xs i = some v → wfJson v = true
  | .cons x tl, 0, hwf, hg => by
      simp only [wfArr, Bool.and_eq_true] at hwf
      simp only [JsonArr.get?, Option.some.injEq] at hg
      exact hg ▸ hwf.1
  | .cons x tl, i + 1, hwf, hg => by
      simp only [wfArr, Bool.and_eq_true] at hwf
      exact wfJson_of_arrGet tl i hwf.2 hg

theorem wfJson_jgetSeg {v : JsonVal} (hwf : wfJson v = true) (seg : String) :
    wfJson (jgetSeg v seg) = true := by
  cases v with
  | obj kvs =>
      cases hlk : lookupJ seg kvs with
      | none => simp [jgetSeg, hlk, wfJson]
      | some w =>
          simp only [jgetSeg, hlk, Option.getD_some]
          exact wfJson_of_lookupJ kvs (by simpa [wfJson] using hwf) hlk
  | arr xs =>
      cases h : toNatDigits? seg with
      | none => simp [jgetSeg, h, wfJson]
      | some i =>
          cases hg : JsonArr.get? xs i with
          | none => simp [jgetSeg, h, hg, wfJson]
          | some w =>
              simp only [jgetSeg, h, hg, Option.getD_some]
              exact wfJson_of_arrGet xs i (by simpa [wfJson] using hwf) hg
  | str s =>
      cases h : toNatDigits? seg with
      | none => simp [jgetSeg, h, wfJson]
      | some i =>
          cases hg : s.data.get? i with
          | none =>
              rw [List.get?_eq_getElem?] at hg
              simp [jgetSeg, h, hg, wfJson]
          | some c =>
              rw [List.get?_eq_getElem?] at hg
              simp [jgetSeg, h, hg, wfJson]
  | null => rfl
  | undefined => rfl
  | bool b => rfl
  | num n => rfl

theorem wfJson_jget {v : JsonVal} (hwf : wfJson v = true) (p : String) :
    wfJson (jget v p) = true := by
  unfold jget
  generalize splitOnDot p = segs
  induction segs generalizing v with
  | nil => exact hwf
  | cons s segs ih => exact ih (wfJson_jgetSeg hwf s)

/-- The document of scenario S5: `current`. -/
def c1_current : JsonVal := .obj (.ofList [
  ("a", .num 1),
  ("b", .obj (.ofList
    [("x", .num 2), ("y", .arr (.ofList [.num 1, .num 2]))])),
  ("c", .str "keep")])

/-- The document of scenario S5: `computed`. -/
def c1_computed : JsonVal := .obj (.ofList [
  ("a", .num 1),
  ("b", .obj (.ofList
    [("x", .num 3), ("y", .arr (.ofList [.num 1, .num 2])), ("z", .null)])),
  ("d", .str "new")])

/-- The update set the claim expects for scenario S5 (with `b.y`). -/
def c1_claimed : JsonObj := .ofList [
  ("b.x", .num 3),
  ("b.y", .arr (.ofList [.num 1, .num 2])),
  ("d", .str "new")]

/-- The update set the code actually produces for scenario S5. -/
def c1_actual : JsonObj := .ofList [("b.x", .num 3), ("d", .str "new")]

/-- C9: for every valid artifact document `a` (a JSON value whose objects
bind each key at most once), `mk_update_set(a, a)` is the empty update
set: every packed path of `a` coincides with itself on both sides and the
comparator drops it. -/
theorem C9_mk_update_set_self_empty (a : JsonVal) (hwf : wfJson a = true) :
    mk_update_set a a = .nil := by
  simp only [mk_update_set]
  have hfe : (drop_empty_paths (paths_mongodb_pack_array a) a).filter
      (fun np => !((drop_empty_paths (paths_mongodb_pack_array a) a).any
        (fun op => updateSetComparator a a np op))) = [] := by
    rw [List.filter_eq_nil_iff]
    intro p hp
    have hany : (drop_empty_paths (paths_mongodb_pack_array a) a).any
        (fun op => updateSetComparator a a p op) = true := by
      rw [List.any_eq_true]
      refine ⟨p, hp, ?_⟩
      simp [updateSetComparator, isEq_refl _ (wfJson_jget hwf p)]
    simp [hany]
  rw [hfe]
  rfl

/-- C9 witness: the empty-update-set law applied to a concrete artifact
document. -/
theorem C9_witness :
    wfJson c1_current = true ∧ mk_update_set c1_current c1_current = .nil :=
  ⟨rfl, C9_mk_update_set_self_empty c1_current rfl⟩

/-- C1 counterexample: on the concrete S5 input the path `b.y`, at which
both documents hold the element-wise equal array `[1,2]`, is NOT emitted
in the update set, and the produced update set differs from the one the
claim states. -/
theorem C1_counterexample :
    lookupJ "b.y" (mk_update_set c1_current c1_computed) = none ∧
    mk_update_set c1_current c1_computed ≠ c1_claimed := by
  refine ⟨rfl, fun h => ?_⟩
  have h2 : (none : Option JsonVal)
      = some (JsonVal.arr (.ofList [.num 1, .num 2])) := by
    calc (none : Option JsonVal)
        = lookupJ "b.y" (mk_update_set c1_current c1_computed) := rfl
      _ = lookupJ "b.y" c1_claimed := by rw [h]
      _ = some (JsonVal.arr (.ofList [.num 1, .num 2])) := rfl
  exact Option.noConfusion h2

/-- C1 (amended): when both documents hold an array at the same packed
path, the path is emitted with the array from `computed` exactly when the
two arrays are not element-wise deep-equal (deep-equal arrays are dropped
by the comparator); on the concrete S5 input the update set is therefore
exactly the object with `b.x = 3` and `d = "new"` (no `b.y`). -/
theorem C1_amended :
    (∀ (present newdata : JsonVal) (p : String) (xs ys : JsonArr),
       p ∈ paths_mongodb_pack_array newdata →
       p ∈ paths_mongodb_pack_array present →
       jget newdata p = .arr xs →
       jget present p = .arr ys →
       lookupJ p (mk_update_set present newdata) =
         (if isEqArr xs ys then none else some (.arr xs))) ∧
    mk_update_set c1_current c1_computed = c1_actual := by
  refine ⟨?_, rfl⟩
  intro present newdata p xs ys hpn hpp hgn hgp
  have hpn' : p ∈ drop_empty_paths (paths_mongodb_pack_array newdata) newdata := by
    rw [drop_empty_paths, List.mem_filter]
    exact ⟨hpn, by simp [isEmptyAtPath, hgn]⟩
  have hpp' : p ∈ drop_empty_paths (paths_mongodb_pack_array present) present := by
    rw [drop_empty_paths, List.mem_filter]
    exact ⟨hpp, by simp [isEmptyAtPath, hgp]⟩
  simp only [mk_update_set]
  by_cases heq : isEqArr xs ys = true
  · rw [if_pos heq]
    refine lookupJ_foldl_setKey_skip p _ .nil ?_
    intro kv hkv
    rcases List.mem_map.mp hkv with ⟨q, hq, rfl⟩
    rcases List.mem_filter.mp hq with ⟨_, hq2⟩
    intro hq3
    have hq3' : q = p := hq3
    rw [hq3'] at hq2
    have hany : (drop_empty_paths (paths_mongodb_pack_array present) present).any
        (fun op => updateSetComparator newdata present p op) = true := by
      rw [List.any_eq_true]
      refine ⟨p, hpp', ?_⟩
      simp [updateSetComparator, hgn, hgp, isEq, heq]
    rw [hany] at hq2
    exact Bool.noConfusion hq2
  · rw [if_neg heq]
    refine lookupJ_foldl_setKey_const p (.arr xs) _ .nil ?_ (Or.inl ?_)
    · intro kv hkv hk1
      rcases List.mem_map.mp hkv with ⟨q, _, rfl⟩
      have hk1' : q = p := hk1
      show jget newdata q = JsonVal.arr xs
      rw [hk1', hgn]
    · rw [List.mem_map]
      refine ⟨(p, jget newdata p), List.mem_map.mpr ⟨p, ?_, rfl⟩, rfl⟩
      rw [List.mem_filter]
      refine ⟨hpn', ?_⟩
      have hany : (drop_empty_paths (paths_mongodb_pack_array present) present).any
          (fun op => updateSetComparator newdata present p op) = false := by
        rw [List.any_eq_false]
        intro op hop
        simp only [updateSetComparator]
        by_cases hpo : p = op
        · subst hpo
          simp [hgn, hgp, isEq, heq]
        · simp [hpo]
      simp [hany]

/-- C1 witness: the amended law applied at the S5 input and path `b.y`
(deep-equal arrays, hence not emitted). -/
theorem C1_witness :
    lookupJ "b.y" (mk_update_set c1_current c1_computed)
      = (if isEqArr (.ofList [.num 1, .num 2]) (.ofList [.num 1, .num 2])
         then none else some (.arr (.ofList [.num 1, .num 2]))) :=
  C1_amended.1 c1_current c1_computed "b.y"
    (.ofList [.num 1, .num 2]) (.ofList [.num 1, .num 2])
    (by simp [c1_computed, paths_mongodb_pack_array, JsonObj.ofList, pathsPackObj])
    (by simp [c1_current, paths_mongodb_pack_array, JsonObj.ofList, pathsPackObj])
    rfl rfl

/-- `customMerge(presentVaule, newValue)` (src msg_handlers, doc-DB side):
keep the present value when both values are arrays and the incoming array
is empty, or both are strings and the incoming string is empty; otherwise
return `undefined`, deferring to the default merge.  The parameter name
keeps the source's spelling. -/
def customMerge (presentVaule newValue : JsonVal) : Option JsonVal :=
  if isArrayJS presentVaule && isArrayJS newValue && isEmptyJS newValue then
    some presentVaule
  else if isStringJS presentVaule && isStringJS newValue && isEmptyJS newValue then
    some presentVaule
  else none

mutual
/-- Value resolution for one property of lodash
`_.mergeWith(object, source, customMerge)`: the customizer is consulted
first; when it yields `undefined`, the default rules of the library apply,
as the source's comment documents them: source properties resolving to
`undefined` are skipped when a destination value exists, array and plain
object properties are merged recursively, other values are overridden by
assignment.  On a non-array destination an incoming array is rebuilt from
scratch, on a non-object destination an incoming object likewise (for the
JSON property values the payload extractors produce; lodash corner cases
involving array-like plain objects do not arise there). -/
def mergeEntry (objValue : JsonVal) (keyExists : Bool) (srcValue : JsonVal) :
    JsonVal :=
  match customMerge objValue srcValue with
  | some v => v
  | none =>
      match srcValue with
      | .arr sxs =>
          match objValue with
          | .arr oxs => .arr (mergeArr oxs sxs)
          | _ => .arr (mergeArr .nil sxs)
      | .obj skvs =>
          match objValue with
          | .obj okvs => .obj (mergeObj okvs skvs)
          | _ => .obj (mergeObj .nil skvs)
      | .undefined => if keyExists then objValue else .undefined
      | _ => srcValue

/-- Index-wise recursive merge of a source array into a destination array
(destination elements beyond the source length are kept). -/
def mergeArr (dst : JsonArr) (src : JsonArr) : JsonArr :=
  match dst, src with
  | d, .nil => d
  | .nil, .cons s ss => .cons (mergeEntry .undefined false s) (mergeArr .nil ss)
  | .cons d ds, .cons s ss => .cons (mergeEntry d true s) (mergeArr ds ss)

/-- Key-wise recursive merge of a source object into a destination object,
assigning resolved values left to right in source order. -/
def mergeObj (dst : JsonObj) (src : JsonObj) : JsonObj :=
  match src with
  | .nil => dst
  | .cons k sv stl =>
      let entry :=
        match lookupJ k dst with
        | some ov => mergeEntry ov true sv
        | none => mergeEntry .undefined false sv
      mergeObj (setKey dst k entry) stl
end

/-- `_.mergeWith(db_artifact.payload, newPayload, customMerge)` as invoked
by `handlerCommon` (src/msg_handlers_rpm_build.ts): both arguments are
payload objects there. -/
def mergeWithCustom (dst src : JsonVal) : JsonVal :=
  match dst, src with
  | .obj d, .obj s => .obj (mergeObj d s)
  | _, _ => dst

theorem mergeObj_lookup_skip {k : String} :
    (src : JsonObj) → (dst : JsonObj) → hasKey k src = false →
    lookupJ k (mergeObj dst src) = lookupJ k dst
  | .nil, dst, _ => rfl
  | .cons k' sv stl, dst, h => by
      simp only [hasKey, Bool.or_eq_false_iff] at h
      have hk : k ≠ k' := by
        intro he; rw [he] at h; simp at h
      rw [mergeObj, mergeObj_lookup_skip stl _ h.2,
        lookupJ_setKey_ne k k' _ hk]

theorem mergeEntry_arr_empty (xs : JsonArr) (b : Bool) :
    mergeEntry (.arr xs) b (.arr .nil) = .arr xs := rfl

theorem mergeEntry_str_empty (s : String) (b : Bool) :
    mergeEntry (.str s) b (.str "") = .str s := rfl

theorem mergeObj_preserves_of_entry {k : String} {v e : JsonVal} :
    (src : JsonObj) → (dst : JsonObj) → wfObj src = true →
    lookupJ k dst = some v → lookupJ k src = some e →
    (∀ b, mergeEntry v b e = v) →
    lookupJ k (mergeObj dst src) = some v
  | .cons k' sv stl, dst, hwf, hd, hs, hme => by
      simp only [wfObj, Bool.and_eq_true, Bool.not_eq_true'] at hwf
      by_cases hk : k = k'
      · subst hk
        rw [lookupJ, if_pos rfl] at hs
        have hsv : sv = e := Option.some.inj hs
        rw [mergeObj]
        have hentry :
            (match lookupJ k dst with
             | some ov => mergeEntry ov true sv
             | none => mergeEntry .undefined false sv) = v := by
          rw [hd, hsv]
          exact hme true
        rw [hentry, mergeObj_lookup_skip stl _ hwf.1.1,
          lookupJ_setKey_self]
      · rw [lookupJ, if_neg hk] at hs
        rw [mergeObj]
        exact mergeObj_preserves_of_entry stl _ hwf.2
          (by rw [lookupJ_setKey_ne k k' _ hk]; exact hd) hs hme

/-- The present payload of the C10 counterexample: a non-empty string. -/
def c10_present : JsonObj := .ofList [("issuer", .str "bodhi")]

/-- The incoming payload of the C10 counterexample: an empty array at the
same key. -/
def c10_incoming : JsonObj := .ofList [("issuer", .arr .nil)]

/-- C10 counterexample: merging a payload carrying an empty ARRAY onto an
existing non-empty STRING overwrites the string (the customizer only
protects same-type pairs, and the default merge rebuilds the array), so an
empty incoming value of mismatched type does overwrite a non-empty
existing value. -/
theorem C10_counterexample :
    mergeWithCustom (.obj c10_present) (.obj c10_incoming)
      = .obj (.ofList [("issuer", .arr .nil)]) ∧
    lookupJ "issuer" (mergeObj c10_present c10_incoming)
      ≠ some (.str "bodhi") := by
  refine ⟨rfl, fun h => ?_⟩
  have h2 : some (JsonVal.arr .nil) = some (JsonVal.str "bodhi") := by
    calc some (JsonVal.arr .nil)
        = lookupJ "issuer" (mergeObj c10_present c10_incoming) := rfl
      _ = some (JsonVal.str "bodhi") := h
  exact JsonVal.noConfusion (Option.some.inj h2)

/-- C10 (amended): an existing value is preserved unchanged whenever the
existing and incoming values are both arrays with the incoming array
empty, or both strings with the incoming string empty; the protection is
limited to same-type pairs — an empty incoming value of the other type
overwrites (see the counterexample). -/
theorem C10_amended :
    (∀ (dst src : JsonObj) (k : String) (xs : JsonArr),
       wfObj src = true →
       lookupJ k dst = some (.arr xs) → lookupJ k src = some (.arr .nil) →
       lookupJ k (mergeObj dst src) = some (.arr xs)) ∧
    (∀ (dst src : JsonObj) (k : String) (s0 : String),
       wfObj src = true →
       lookupJ k dst = some (.str s0) → lookupJ k src = some (.str "") →
       lookupJ k (mergeObj dst src) = some (.str s0)) := by
  constructor
  · intro dst src k xs hwf hd hs
    exact mergeObj_preserves_of_entry src dst hwf hd hs
      (mergeEntry_arr_empty xs)
  · intro dst src k s0 hwf hd hs
    exact mergeObj_preserves_of_entry src dst hwf hd hs
      (mergeEntry_str_empty s0)

/-- C10 witness: same-type preservation applied at concrete payloads (an
empty incoming array next to a kept array, an empty incoming string next
to a kept string). -/
theorem C10_witness :
    lookupJ "tags" (mergeObj (.ofList [("tags", .arr (.ofList [.str "a"]))])
        (.ofList [("tags", .arr .nil)]))
      = some (.arr (.ofList [.str "a"])) ∧
    lookupJ "nvr" (mergeObj (.ofList [("nvr", .str "x-1-1")])
        (.ofList [("nvr", .str "")]))
      = some (.str "x-1-1") :=
  ⟨C10_amended.1 (.ofList [("tags", .arr (.ofList [.str "a"]))])
      (.ofList [("tags", .arr .nil)]) "tags" (.ofList [.str "a"]) rfl rfl rfl,
   C10_amended.2 (.ofList [("nvr", .str "x-1-1")])
      (.ofList [("nvr", .str "")]) "nvr" "x-1-1" rfl rfl rfl⟩

mutual
/-- JavaScript string coercion as lodash `_.toString` performs it: objects
render as "[object Object]", arrays join their elements with commas,
`null` and `undefined` render as the empty string. -/
def jsToString : JsonVal → String
  | .null => ""
  | .undefined => ""
  | .bool b => if b then "true" else "false"
  | .num n => intToStr n
  | .str s => s
  | .arr xs => jsToStringArr xs
  | .obj _ => "[object Object]"

/-- Comma-joined rendering of array elements. -/
def jsToStringArr : JsonArr → String
  | .nil => ""
  | .cons x .nil => jsToString x
  | .cons x (.cons y tl) => jsToString x ++ "," ++ jsToStringArr (.cons y tl)
end

/-- The envelope read from the file queue (`FileQueueMessage`,
src/fqueue.ts), restricted to the fields the handlers consult. -/
structure FileQueueMessage where
  broker_msg_id : String
  broker_topic : String
  body : JsonVal

/-- `isTestStage(broker_topic)`: the second-from-last dot segment of the
topic equals "test" (`_.nth(_.split(topic, '.'), -2) === 'test'`). -/
def isTestStage (broker_topic : String) : Bool :=
  nthFromEnd2 (splitOnDot broker_topic) == some "test"

/-- `isMsgV1` on the message's version string: version 0.2.x or 1.x. -/
def isMsgV1Str (version : String) : Bool :=
  startsWithStr "0.2." version || startsWithStr "1." version

/-- `isMsgV0` on the message's version string: version 0.1.x. -/
def isMsgV0Str (version : String) : Bool :=
  startsWithStr "0.1." version

/-- A whitespace character as the JavaScript regex class matches it. -/
def isSpaceChar (c : Char) : Bool :=
  c = ' ' || c = '\t' || c = '\n' || c = '\r' || c = '\x0b' || c = '\x0c'

/-- The `test_case_name` schema check: the string matches the regex
requiring three non-space runs separated by dots (a run may itself
contain dots, so the recognizer asks for two separator dots leaving
non-empty text on the left, between and on the right). -/
def validTestCaseName (s : String) : Bool :=
  let dots := ((s.data.enum).filter (fun p => p.2 = '.')).map Prod.fst
  let goodI := dots.filter (fun i => 1 ≤ i)
  let goodJ := dots.filter (fun j => j + 2 ≤ s.data.length)
  !(s.data.any isSpaceChar) &&
    goodI.any (fun i => goodJ.any (fun j => i + 2 ≤ j))

/-- The namespace/type/category combination step of `makeTestCaseName`:
the template string is built only when all three parts have non-zero
`_.size`. -/
def mkNsTypeCategory (ns ty cat : JsonVal) : String :=
  if sizeJS ns != 0 && sizeJS ty != 0 && sizeJS cat != 0 then
    jsToString ns ++ "." ++ jsToString ty ++ "." ++ jsToString cat
  else ""

/-- `makeTestCaseName(body)` (identical on both writer paths): read
namespace/type/category from `body.test.*` for version 0.2/1.x messages,
from the top level for version 0.1 messages, and validate against the
`test_case_name` schema; `none` models the thrown validation error, and
also the type error the source would hit when `body.version` is not a
string. -/
def makeTestCaseName (body : JsonVal) : Option String :=
  match jget body "version" with
  | .str version =>
      let name :=
        if isMsgV1Str version then
          mkNsTypeCategory (jget body "test.namespace") (jget body "test.type")
            (jget body "test.category")
        else if isMsgV0Str version then
          mkNsTypeCategory (jget body "namespace") (jget body "type")
            (jget body "category")
        else ""
      if validTestCaseName name then some name else none
  | _ => none

/-- Lodash `_.join(parts, '~')`. -/
def joinTilde : List String → String
  | [] => ""
  | [s] => s
  | s :: s' :: rest => s ++ "~" ++ joinTilde (s' :: rest)

/-- The `_.find` predicate of `mkThreadId`: a candidate thread id must be
non-empty and a string. -/
def threadIdCandidate (v : JsonVal) : Bool :=
  !isEmptyJS v && isStringJS v

/-- String content of a value already known to satisfy `isStringJS`. -/
def asStr : JsonVal → String
  | .str s => s
  | _ => ""

/-- Result of `mkThreadId`: a thread id, the `NoThreadIdError`, or a
`test_case_name` validation failure raised while building the dummy
anchor. -/
inductive ThreadIdResult where
  | ok (thread_id : String)
  | noThreadIdError
  | invalidTestCaseName
deriving DecidableEq

namespace DocDb

/-- `mkThreadId(fq_msg)` of the document-DB handler path, parametrized by
the SHA-256 lowercase-hex digest `sha256hex` (the external crypto
primitive `crypto.createHash('sha256')...digest('hex')`).  Preference
order: `body.pipeline.id`, then `body.thread_id` (each when a non-empty
string), else a dummy id hashed from `run.url` and possibly the test case
name.  NOTE: this path passes the message BODY (an object) to
`isTestStage`, which stringifies it — `"[object Object]"` — before
splitting on dots, so the test-stage branch is never taken here. -/
def mkThreadId (sha256hex : String → String) (m : FileQueueMessage) :
    ThreadIdResult :=
  let thread_id_v_1 := jget m.body "pipeline.id"
  let thread_id_v_0_1 := jget m.body "thread_id"
  if threadIdCandidate thread_id_v_1 then .ok (asStr thread_id_v_1)
  else if threadIdCandidate thread_id_v_0_1 then .ok (asStr thread_id_v_0_1)
  else
    let run_url := jget m.body "run.url"
    let parts0 : List String :=
      if !isEmptyJS run_url && isStringJS run_url then [asStr run_url] else []
    let finish : List String → ThreadIdResult := fun hashAnchorParts =>
      if hashAnchorParts.isEmpty then .noThreadIdError
      else .ok ("dummy-thread-" ++ sha256hex (joinTilde hashAnchorParts))
    if isTestStage (jsToString m.body) then
      match makeTestCaseName m.body with
      | some test_case_name => finish (parts0 ++ [test_case_name])
      | none => .invalidTestCaseName
    else finish parts0

end DocDb

namespace Search

/-- `mkThreadId(fq_msg)` of the search-index handler path
(src/opensearch/msg_handlers.ts): identical to the document-DB variant
except that the test-stage check is applied to `broker_topic`, as the
claim describes. -/
def mkThreadId (sha256hex : String → String) (m : FileQueueMessage) :
    ThreadIdResult :=
  let threadIdV1 := jget m.body "pipeline.id"
  let threadIdV01 := jget m.body "thread_id"
  if threadIdCandidate threadIdV1 then .ok (asStr threadIdV1)
  else if threadIdCandidate threadIdV01 then .ok (asStr threadIdV01)
  else
    let runUrl := jget m.body "run.url"
    let parts0 : List String :=
      if !isEmptyJS runUrl && isStringJS runUrl then [asStr runUrl] else []
    let finish : List String → ThreadIdResult := fun hashAnchorParts =>
      if hashAnchorParts.isEmpty then .noThreadIdError
      else .ok ("dummy-thread-" ++ sha256hex (joinTilde hashAnchorParts))
    if isTestStage m.broker_topic then
      match makeTestCaseName m.body with
      | some testCaseName => finish (parts0 ++ [testCaseName])
      | none => .invalidTestCaseName
    else finish parts0

end Search

/-- Body of the C6 failing input: a version 1.x test message with a run
url and test-case fields but no `pipeline.id` and no `thread_id`. -/
def c6_body : JsonVal := .obj (.ofList [
  ("version", .str "1.0.0"),
  ("run", .obj (.ofList [("url", .str "https://jenkins.example.com/run/1")])),
  ("test", .obj (.ofList [
    ("namespace", .str "osci"),
    ("type", .str "tier0"),
    ("category", .str "functional")]))])

/-- The C6 failing input: a `test`-stage envelope. -/
def c6_msg : FileQueueMessage := {
  broker_msg_id := "ID:msg-1"
  broker_topic := "org.centos.prod.ci.koji-build.test.complete"
  body := c6_body }

/-- A variant of the C6 input carrying `pipeline.id`. -/
def c6_msg_pipeline : FileQueueMessage := {
  c6_msg with body := .obj (.ofList [
    ("version", .str "1.0.0"),
    ("pipeline", .obj (.ofList [("id", .str "pipeline-77")]))]) }

/-- A variant of the C6 input with no usable anchor at all (a build-stage
topic; on a test-stage topic the search path rejects the message earlier,
while building the test case name). -/
def c6_msg_no_anchor : FileQueueMessage := {
  broker_msg_id := "ID:msg-1"
  broker_topic := "org.fedoraproject.prod.ci.koji-build.build.complete"
  body := .obj (.ofList [("version", .str "1.0.0")]) }

/-- C6: for any digest function, on a test-stage envelope without
pipeline/thread ids the document-DB `mkThreadId` hashes `run.url` alone —
the test-case suffix is never appended because the stage check receives
the stringified body — while the search-index `mkThreadId` hashes
`run.url ~ test_case_name` as the claim states; `pipeline.id` is
preferred when present and `NoThreadIdError` is raised when no anchor can
be formed (identically on both paths). -/
theorem C6_threadid_divergence (sha256hex : String → String) :
    DocDb.mkThreadId sha256hex c6_msg
      = .ok ("dummy-thread-" ++ sha256hex "https://jenkins.example.com/run/1") ∧
    Search.mkThreadId sha256hex c6_msg
      = .ok ("dummy-thread-" ++ sha256hex
          "https://jenkins.example.com/run/1~osci.tier0.functional") ∧
    DocDb.mkThreadId sha256hex c6_msg_pipeline = .ok "pipeline-77" ∧
    Search.mkThreadId sha256hex c6_msg_pipeline = .ok "pipeline-77" ∧
    DocDb.mkThreadId sha256hex c6_msg_no_anchor = .noThreadIdError ∧
    Search.mkThreadId sha256hex c6_msg_no_anchor = .noThreadIdError :=
  ⟨rfl, rfl, rfl, rfl, rfl, rfl⟩

/-- Observable events of the listener around one broker delivery. -/
inductive ListenerEvent where
  | spoolPushStarted
  | brokerAccepted
  | spoolPushSettled (ok : Bool)
deriving DecidableEq

/-- One AMQP delivery as `process_msg` (the listener) sees it: the `to`
and `message_id` fields, whether the decoded body parses as JSON, and
whether the asynchronous file-queue append eventually succeeds. -/
structure BrokerDelivery where
  topic? : Option String
  msg_id? : Option String
  bodyParses : Bool
  pushSucceeds : Bool

/-- Synchronous event sequence of `process_msg` (listener, AMQP-1.0):
incomplete messages are logged and dropped; on a JSON parse failure the
delivery is accepted and dropped; otherwise `fq.push(...)` is initiated —
its promise is NOT awaited — and `delivery.accept()` runs immediately
after, still inside the same synchronous run. -/
def process_msg_sync (d : BrokerDelivery) : List ListenerEvent :=
  match d.topic?, d.msg_id? with
  | some _, some _ =>
      if d.bodyParses then [.spoolPushStarted, .brokerAccepted]
      else [.brokerAccepted]
  | _, _ => []

/-- The full observable trace of the delivery: by JavaScript
run-to-completion semantics the promise returned by `fq.push` settles
only after the synchronous body of `process_msg` has finished, so the
settlement event follows everything in `process_msg_sync`. -/
def listenerTrace (d : BrokerDelivery) : List ListenerEvent :=
  process_msg_sync d ++
    (match d.topic?, d.msg_id? with
     | some _, some _ =>
         if d.bodyParses then [.spoolPushSettled d.pushSucceeds] else []
     | _, _ => [])

/-- The ordering property the claim asserts, as a trace predicate: at
every broker acknowledgement the spool append has already settled
successfully. -/
def ackOnlyAfterSettledPush (tr : List ListenerEvent) : Bool :=
  (tr.foldl
    (fun (st : Bool × Bool) ev =>
      match ev with
      | .spoolPushSettled true => (true, st.2)
      | .brokerAccepted => (st.1, st.2 && st.1)
      | _ => st)
    (false, true)).2

/-- The C5 failing input: a complete delivery whose body parses as JSON
and whose append eventually succeeds. -/
def c5_delivery : BrokerDelivery := {
  topic? := some "topic://VirtualTopic.eng.ci.brew-build.test.complete"
  msg_id? := some "ID:msg-42"
  bodyParses := true
  pushSucceeds := true }

/-- C5: the listener acknowledges the broker while the spool append is
still pending — the acknowledgement event precedes the settlement of the
push in the trace, so the claimed ordering is violated on every accepted
JSON message. -/
theorem C5_ack_before_push_settles :
    listenerTrace c5_delivery
      = [.spoolPushStarted, .brokerAccepted, .spoolPushSettled true] ∧
    ackOnlyAfterSettledPush (listenerTrace c5_delivery) = false := by
  exact ⟨rfl, rfl⟩

/-- One entry of the `states[]` array of an artifact document, restricted
to the fields the deduplication invariant concerns: the broker message and
the `kai_state.msg_id` key it is deduplicated by. -/
structure ArtifactState where
  msg_id : String
  broker_msg_body : JsonVal

/-- Projection of `makeState(fq_msg)` (doc-DB handlers) onto the fields of
`ArtifactState`: the source sets `kai_state.msg_id` to `broker_msg_id`
verbatim and stores the message body alongside. -/
def makeStateRecord (m : FileQueueMessage) : ArtifactState :=
  { msg_id := m.broker_msg_id, broker_msg_body := m.body }

/-- The state-append step of `handlerCommon`
(src/msg_handlers_rpm_build.ts): append the freshly-built state only when
`broker_msg_id` is not already among the `kai_state.msg_id` values of the
existing states. -/
def handlerAppendState (states : List ArtifactState) (m : FileQueueMessage) :
    List ArtifactState :=
  if (states.map ArtifactState.msg_id).contains m.broker_msg_id then states
  else states ++ [makeStateRecord m]

/-- The `states[]` array after a sequence of handled envelopes, starting
from a freshly created document (whose states default to the empty
array). -/
def statesAfter (msgs : List FileQueueMessage) : List ArtifactState :=
  msgs.foldl handlerAppendState []

theorem handlerAppendState_nodup (states : List ArtifactState)
    (m : FileQueueMessage)
    (h : (states.map ArtifactState.msg_id).Nodup) :
    ((handlerAppendState states m).map ArtifactState.msg_id).Nodup := by
  unfold handlerAppendState
  by_cases hc : (states.map ArtifactState.msg_id).contains m.broker_msg_id
  · rw [if_pos hc]; exact h
  · rw [if_neg hc, List.map_append]
    have hnm : m.broker_msg_id ∉ states.map ArtifactState.msg_id := by
      intro hmem
      exact hc (List.elem_eq_true_of_mem hmem)
    rw [List.nodup_append]
    refine ⟨h, List.nodup_singleton _, ?_⟩
    intro x hx hx2
    have hxe : x = m.broker_msg_id := by
      simpa [makeStateRecord] using hx2
    exact hnm (hxe ▸ hx)

/-- C8: the handler appends a new state only when the broker message id is
absent from the existing `kai_state.msg_id` values, so the no-duplicate
invariant is preserved by every step and holds for the document produced
by any sequence of envelopes, duplicated deliveries included. -/
theorem C8_states_msgid_nodup :
    (∀ (states : List ArtifactState) (m : FileQueueMessage),
       (states.map ArtifactState.msg_id).Nodup →
       ((handlerAppendState states m).map ArtifactState.msg_id).Nodup) ∧
    (∀ msgs : List FileQueueMessage,
       ((statesAfter msgs).map ArtifactState.msg_id).Nodup) := by
  refine ⟨handlerAppendState_nodup, ?_⟩
  intro msgs
  have hgen : ∀ (ms : List FileQueueMessage) (acc : List ArtifactState),
      (acc.map ArtifactState.msg_id).Nodup →
      ((ms.foldl handlerAppendState acc).map ArtifactState.msg_id).Nodup := by
    intro ms
    induction ms with
    | nil => intro acc h; exact h
    | cons m ms ih =>
        intro acc h
        exact ih _ (handlerAppendState_nodup acc m h)
  exact hgen msgs [] (by simp)

/-- C8 witness: the step preserves the invariant at a concrete document
holding one state, for a duplicated delivery of the same broker message. -/
theorem C8_witness :
    (((handlerAppendState [makeStateRecord c6_msg] c6_msg).map
        ArtifactState.msg_id).Nodup) :=
  C8_states_msgid_nodup.1 [makeStateRecord c6_msg] c6_msg (by simp)

/-- The version-relevant view of one artifact document: its `_version`
counter and the rest of the document (opaque for this protocol, since
`$set` never touches `_version` — the counter is changed only by the
`$inc` of the optimistic update and the `$setOnInsert` of creation). -/
structure ArtifactDocV where
  version : Nat
  payload : JsonVal

/-- `Artifacts.findOrCreate(type, aid)` (src/db.ts) on the document keyed
by that pair: upsert with `$setOnInsert` carrying `_version: 1`; an
existing document is returned unchanged, an absent one is created with
version 1. -/
def findOrCreateDoc (s : Option ArtifactDocV) (init : JsonVal) :
    Option ArtifactDocV × ArtifactDocV :=
  match s with
  | some d => (some d, d)
  | none => (some { version := 1, payload := init },
      { version := 1, payload := init })

/-- The guarded update of `Artifacts.add` (src/db.ts): `findOneAndUpdate`
with filter `(_id, _version)` and update `$inc _version by 1` plus `$set`
of the update set (abstracted by the payload it produces).  The
modification succeeds exactly when the stored version still equals the
filtered one. -/
def findOneAndUpdateV (s : Option ArtifactDocV) (filter_version : Nat)
    (newPayload : JsonVal) : Option ArtifactDocV × Bool :=
  match s with
  | some d =>
      if d.version = filter_version then
        (some { version := d.version + 1, payload := newPayload }, true)
      else (some d, false)
  | none => (none, false)

/-- The operations the document-DB writer issues against one artifact
document. -/
inductive DbOp where
  | findOrCreate (init : JsonVal)
  | findOneAndUpdate (filter_version : Nat) (newPayload : JsonVal)

/-- State transition of one writer operation. -/
def applyDbOp (s : Option ArtifactDocV) : DbOp → Option ArtifactDocV
  | .findOrCreate init => (findOrCreateDoc s init).1
  | .findOneAndUpdate fv np => (findOneAndUpdateV s fv np).1

/-- State after a sequence of writer operations. -/
def runDbOps (s : Option ArtifactDocV) (ops : List DbOp) : Option ArtifactDocV :=
  ops.foldl applyDbOp s

/-- The `_version` of the stored document, `0` when absent. -/
def versionOf : Option ArtifactDocV → Nat
  | some d => d.version
  | none => 0

/-- C7: `_version` starts at 1 on creation; a successful guarded update
requires the stored version to equal the filtered (previously observed)
one and leaves exactly that version plus one — strictly greater — and
across any sequence of operations the stored version never decreases. -/
theorem C7_version_strictly_increasing :
    (∀ init, (findOrCreateDoc none init).2.version = 1) ∧
    (∀ (s : Option ArtifactDocV) (fv : Nat) (np : JsonVal) (d' : ArtifactDocV),
       findOneAndUpdateV s fv np = (some d', true) →
       ∃ d, s = some d ∧ d.version = fv ∧ d'.version = d.version + 1 ∧
         d.version < d'.version) ∧
    (∀ (ops : List DbOp) (s : Option ArtifactDocV),
       versionOf s ≤ versionOf (runDbOps s ops)) := by
  refine ⟨fun _ => rfl, ?_, ?_⟩
  · intro s fv np d' h
    cases s with
    | none => exact absurd h (by simp [findOneAndUpdateV])
    | some d =>
        by_cases hv : d.version = fv
        · have h2 : ({ version := d.version + 1, payload := np } : ArtifactDocV)
              = d' := by
            simp only [findOneAndUpdateV, if_pos hv, Prod.mk.injEq,
              Option.some.injEq] at h
            exact h.1
          refine ⟨d, rfl, hv, ?_, ?_⟩
          · rw [← h2]
          · rw [← h2]; exact Nat.lt_succ_self _
        · simp [findOneAndUpdateV, if_neg hv] at h
  · intro ops
    induction ops with
    | nil => intro s; exact Nat.le_refl _
    | cons op ops ih =>
        intro s
        refine Nat.le_trans ?_ (ih (applyDbOp s op))
        cases op with
        | findOrCreate init =>
            cases s with
            | none => simp [applyDbOp, findOrCreateDoc, versionOf]
            | some d => exact Nat.le_refl _
        | findOneAndUpdate fv np =>
            cases s with
            | none => exact Nat.le_refl _
            | some d =>
                by_cases hv : d.version = fv
                · simp [applyDbOp, findOneAndUpdateV, if_pos hv, versionOf]
                · simp [applyDbOp, findOneAndUpdateV, if_neg hv, versionOf]

/-- C7 witness: creation yields version 1, and a successful guarded update
at observed version 3 yields exactly version 4. -/
theorem C7_witness :
    (findOrCreateDoc none .null).2.version = 1 ∧
    ∃ d, (some { version := 3, payload := .null } : Option ArtifactDocV)
        = some d ∧ d.version = 3 ∧
        ({ version := 4, payload := .null } : ArtifactDocV).version
          = d.version + 1 ∧
        d.version < ({ version := 4, payload := .null } : ArtifactDocV).version :=
  ⟨C7_version_strictly_increasing.1 .null,
   C7_version_strictly_increasing.2.1
     (some { version := 3, payload := .null }) 3 .null
     { version := 4, payload := .null } rfl⟩

/-- Outcome of one iteration of the `Artifacts.add` retry loop: the
`findOrCreate` re-read threw (the iteration continues), the computed
update set was empty (the handler result is returned), the guarded
`findOneAndUpdate` modified the document (it is returned), or the
modification failed — version conflict, `updatedExisting` false — and the
loop continues.  Iteration outcomes that abort `add` altogether (a
handler or validation throw, `ToLargeDocumentError`) escape the loop and
are outside the retry accounting. -/
inductive IterOutcome where
  | findOrCreateThrew
  | emptyUpdateSet (doc : Nat)
  | updated (doc : Nat)
  | writeConflict
deriving DecidableEq

/-- Result of `Artifacts.add` for one envelope: a returned document or the
fatal `Error` thrown when all attempts failed. -/
inductive AddOutcome where
  | returned (doc : Nat)
  | fatalError
deriving DecidableEq

/-- The retry loop of `Artifacts.add` (src/db.ts), with the outcome of
each iteration supplied by the oracle `outcome` (documents abstracted by
numbers).  The source initializes `retries_left = 30` and loops `while
(isNull(modifiedDocument) && retries_left > 1)`, decrementing first; the
decremented counter takes the values 29 down to 1, so the guarded `break`
at zero is never taken, and the loop body runs while the entry value
exceeds 1.  The second component counts the iterations performed. -/
def addLoop (outcome : Nat → IterOutcome) : Nat → Nat → AddOutcome × Nat
  | 0, attempts => (.fatalError, attempts)
  | 1, attempts => (.fatalError, attempts)
  | r + 2, attempts =>
      match outcome attempts with
      | .findOrCreateThrew => addLoop outcome (r + 1) (attempts + 1)
      | .emptyUpdateSet d => (.returned d, attempts + 1)
      | .updated d => (.returned d, attempts + 1)
      | .writeConflict => addLoop outcome (r + 1) (attempts + 1)

/-- `Artifacts.add` on one envelope: the retry loop entered with
`retries_left = 30` and no attempts made yet. -/
def addRun (outcome : Nat → IterOutcome) : AddOutcome × Nat :=
  addLoop outcome 30 0

/-- The all-failure oracle: every guarded update hits a version
conflict. -/
def allConflicts : Nat → IterOutcome := fun _ => .writeConflict

theorem addLoop_attempts_le (outcome : Nat → IterOutcome) :
    (r a : Nat) → (addLoop outcome r a).2 ≤ a + (r - 1)
  | 0, a => Nat.le_refl _
  | 1, a => Nat.le_refl _
  | r + 2, a => by
      cases h : outcome a with
      | findOrCreateThrew =>
          have hstep : addLoop outcome (r + 2) a
              = addLoop outcome (r + 1) (a + 1) := by simp [addLoop, h]
          rw [hstep]
          have := addLoop_attempts_le outcome (r + 1) (a + 1); omega
      | emptyUpdateSet d =>
          have hstep : addLoop outcome (r + 2) a
              = (.returned d, a + 1) := by simp [addLoop, h]
          rw [hstep]; omega
      | updated d =>
          have hstep : addLoop outcome (r + 2) a
              = (.returned d, a + 1) := by simp [addLoop, h]
          rw [hstep]; omega
      | writeConflict =>
          have hstep : addLoop outcome (r + 2) a
              = addLoop outcome (r + 1) (a + 1) := by simp [addLoop, h]
          rw [hstep]
          have := addLoop_attempts_le outcome (r + 1) (a + 1); omega

theorem addLoop_all_fail (outcome : Nat → IterOutcome)
    (hf : ∀ n, outcome n = .writeConflict ∨ outcome n = .findOrCreateThrew) :
    (r a : Nat) → addLoop outcome r a = (.fatalError, a + (r - 1))
  | 0, a => by simp [addLoop]
  | 1, a => by simp [addLoop]
  | r + 2, a => by
      have hrec := addLoop_all_fail outcome hf (r + 1) (a + 1)
      rcases hf a with h | h <;>
        · have hstep : addLoop outcome (r + 2) a
              = addLoop outcome (r + 1) (a + 1) := by simp [addLoop, h]
          rw [hstep, hrec]
          simp only [Prod.mk.injEq, true_and]
          omega

/-- C2 counterexample: when every modification fails, `Artifacts.add`
performs exactly 29 iterations — not 30 — before throwing the fatal
error: the loop guard `retries_left > 1` together with the pre-decrement
leaves the thirtieth attempt unreachable. -/
theorem C2_counterexample :
    addRun allConflicts = (.fatalError, 29) ∧ (29 : Nat) ≠ 30 :=
  ⟨rfl, by decide⟩

/-- C2 (amended): the optimistic-concurrency update is retried for at
most 29 iterations, and when every modification fails the writer
terminates the envelope with the fatal thrown `Error` after exactly 29
failed iterations. -/
theorem C2_amended :
    (∀ outcome, (addRun outcome).2 ≤ 29) ∧
    (∀ outcome,
       (∀ n, outcome n = .writeConflict ∨ outcome n = .findOrCreateThrew) →
       addRun outcome = (.fatalError, 29)) := by
  constructor
  · intro outcome
    exact addLoop_attempts_le outcome 30 0
  · intro outcome hf
    exact addLoop_all_fail outcome hf 30 0

/-- C2 witness: the amended bound applied to the all-conflicts oracle. -/
theorem C2_witness :
    (addRun allConflicts).2 ≤ 29 ∧ addRun allConflicts = (.fatalError, 29) :=
  ⟨C2_amended.1 allConflicts,
   C2_amended.2 allConflicts (fun _ => Or.inl rfl)⟩

/-- The flush thresholds of the search-index writer loop (the OpenSearch
loader): at most `bulkMaxEntries` pending updates, at most `bulkMaxSize`
pending bytes, at most `bulkSecondsThreshold` seconds between messages.
The source's comment on the size bound says "50MB: bulk max size", but
the expression computes 1024·1024·1024·50 bytes, which is 50 GiB. -/
def bulkSecondsThreshold : Nat := 3

/-- Pending-update count threshold of the writer loop. -/
def bulkMaxEntries : Nat := 100

/-- Pending-size threshold of the writer loop, as the source computes
it. -/
def bulkMaxSize : Nat := 1024 * 1024 * 1024 * 50

/-- The continue condition of the writer loop, evaluated after the new
message's updates were appended: keep accumulating when the gap to the
previous message, the pending count and the pending size are all below
their thresholds, or when nothing is pending.  The gap is carried in
milliseconds: the source compares `(now - prev)/1000 < 3`, which for a
millisecond-precision clock is `gapMs < 3000`. -/
def keepAccumulating (gapMs numUpdates sizeBytes : Nat) : Bool :=
  (decide (gapMs < 1000 * bulkSecondsThreshold) &&
     decide (numUpdates < bulkMaxEntries) &&
     decide (sizeBytes < bulkMaxSize)) ||
  numUpdates == 0

/-- Whether the loop issues a bulk flush after this message. -/
def flushNow (gapMs numUpdates sizeBytes : Nat) : Bool :=
  !keepAccumulating gapMs numUpdates sizeBytes

/-- C3: the loop does NOT flush at 50 MiB pending — the size threshold in
the code is 53 687 091 200 bytes (50 GiB), contradicting the code's own
"50MB" comment — while the count and idle thresholds behave as stated
(flush at 100 pending updates or at a 3 s gap, nothing pending
excepted). -/
theorem C3_flush_thresholds :
    bulkMaxSize = 53687091200 ∧
    (50 * 1024 * 1024 : Nat) = 52428800 ∧
    flushNow 0 1 52428800 = false ∧
    flushNow 0 1 53687091200 = true ∧
    flushNow 0 100 0 = true ∧
    flushNow 3000 1 0 = true ∧
    flushNow 2999 99 0 = false ∧
    flushNow 3000 0 0 = false := by decide

/-- Accumulator of the search-index writer loop: pending updates, pending
byte size, and the bulk requests issued so far (updates abstracted by
numbers). -/
structure LoaderState where
  bulkUpdates : List Nat
  bulkSizeBytes : Nat
  flushes : List (List Nat)
deriving DecidableEq

/-- One message arrival seen by the writer loop: the time since the
previous message and the updates the handler produced for it. -/
structure MsgArrival where
  gapMs : Nat
  updates : List Nat
  updatesSizeBytes : Nat

/-- One iteration of the writer loop for a message that passed the
envelope check: its updates are appended to the pending batch first, and
only then the continue condition is evaluated — so a flush triggered by
the idle gap includes the updates of the message that just arrived. -/
def loaderStep (s : LoaderState) (e : MsgArrival) : LoaderState :=
  let bulkSizeBytes := s.bulkSizeBytes + e.updatesSizeBytes
  let bulkUpdates := s.bulkUpdates ++ e.updates
  if keepAccumulating e.gapMs bulkUpdates.length bulkSizeBytes then
    { bulkUpdates := bulkUpdates, bulkSizeBytes := bulkSizeBytes,
      flushes := s.flushes }
  else
    { bulkUpdates := [], bulkSizeBytes := 0,
      flushes := s.flushes ++ [bulkUpdates] }

/-- The bulk requests the loop has issued after a sequence of message
arrivals, starting from an empty batch. -/
def loaderRun (events : List MsgArrival) : List (List Nat) :=
  (events.foldl loaderStep
    { bulkUpdates := [], bulkSizeBytes := 0, flushes := [] }).flushes

/-- The S6 scenario: three envelopes within 100 ms, a 3.5 s pause, one
more envelope (one small update each). -/
def c4_events : List MsgArrival := [
  { gapMs := 10, updates := [1], updatesSizeBytes := 100 },
  { gapMs := 50, updates := [2], updatesSizeBytes := 100 },
  { gapMs := 50, updates := [3], updatesSizeBytes := 100 },
  { gapMs := 3500, updates := [4], updatesSizeBytes := 100 }]

/-- C4 counterexample: on the S6 arrival pattern the writer issues ONE
bulk request containing the updates of all four envelopes — not two
requests of three and one — because the idle check runs only when the
next envelope arrives, after that envelope's updates were already
appended to the pending batch. -/
theorem C4_counterexample :
    loaderRun c4_events = [[1, 2, 3, 4]] ∧
    loaderRun c4_events ≠ [[1, 2, 3], [4]] := by decide

/-- C4 (amended): the S6 pattern produces exactly one bulk request,
issued upon arrival of the fourth envelope and containing the updates of
all four envelopes. -/
theorem C4_amended :
    loaderRun c4_events = [[1, 2, 3, 4]] ∧
    (loaderRun c4_events).length = 1 := by decide

end Kaijs
